import Mathlib

/-!
Shallow embedding of the ts-rest adapter of `@webstir-io/module-contract`
(`src/adapters/ts-rest.ts`) together with the data model it produces
(`src/index.ts`).  The adapter is pure, single-threaded TypeScript; each
definition below mirrors one source function or record shape.  External
`@ts-rest/core` type predicates (`isZodType`, `isAppRouteMutation`,
`isAppRouteNoBody`, `isAppRouteOtherResponse`, `isAppRoute`) are modelled
as tagged variants / boolean fields, following the tagged-union reading the
contract itself documents.
-/

set_option autoImplicit false

namespace ModuleContract

/-- A Zod schema value.  `void` is `z.void()` (the adapter's
`noopResponseSchema` default); `named` stands for any other concrete schema
object, identified by a label so that distinct schemas stay distinct. -/
inductive ZodSchema where
  | void
  | named (id : String)
deriving DecidableEq, Repr

/-- The JavaScript values the adapter's `toZod` helper inspects: a falsy
value, a value recognized by `isZodType`, a non-schema object carrying a
`body` property, or any other truthy non-schema value. -/
inductive JsValue where
  | nullish
  | zod (s : ZodSchema)
  | objWithBody (body : JsValue)
  | other
deriving DecidableEq, Repr

/-- The `SchemaReference` from `src/index.ts`: `kind` is one of
`zod | json-schema | ts-rest`, `source` is optional. -/
structure SchemaReference where
  kind : String
  name : String
  source : Option String
deriving DecidableEq, Repr

/-- A value of a ts-rest status-keyed response map: the `ContractNoBody`
sentinel, a value recognized by `isAppRouteNoBody`, a value recognized by
`isAppRouteOtherResponse` (carrying a `body` property), or any other value
(handed to `toZod` directly). -/
inductive AppRouteResponse where
  | contractNoBody
  | noBodyTagged
  | otherResponse (body : JsValue)
  | plain (v : JsValue)
deriving DecidableEq, Repr

/-- A ts-rest `AppRoute` leaf contract, keeping exactly the fields the
adapter reads.  `mutation` is the external `isAppRouteMutation` predicate's
verdict, treated as authoritative; `responses` is the status-keyed response
map (`Object.keys` + `Number.parseInt` turn the keys into numbers, so keys
are `Nat` here; JS object keys are unique). -/
structure AppRoute where
  method : String
  path : String
  summary : Option String
  description : Option String
  pathParams : JsValue
  query : JsValue
  headers : JsValue
  body : JsValue
  mutation : Bool
  responses : List (Nat × AppRouteResponse)
deriving DecidableEq, Repr

/-- The `DEFAULT_SUCCESS_CODES` (ts-rest.ts line 78). -/
def DEFAULT_SUCCESS_CODES : List Nat := [200, 201, 202, 204]

/-- The `noopResponseSchema = z.void()` (ts-rest.ts line 80). -/
def noopResponseSchema : ZodSchema := ZodSchema.void

/-- The `isNonEmpty` (ts-rest.ts lines 82-83): an optional readonly array is
non-empty when it is an array of positive length. -/
def isNonEmpty {T : Type} : Option (List T) → Bool
  | some l => decide (0 < l.length)
  | none => false

/-- Is a character in `[A-Za-z0-9]`?  The character class of the regex in
`sanitizeSchemaBase` (ts-rest.ts line 85). -/
def isAlnumChar (c : Char) : Bool :=
  ('A' ≤ c && c ≤ 'Z') || ('a' ≤ c && c ≤ 'z') || ('0' ≤ c && c ≤ '9')

/-- Character-list engine of `raw.replace(/[^A-Za-z0-9]+/g, '_')`: a global
regex replace maps each maximal run of non-alphanumeric characters to a
single underscore.  `inRun` records whether the previous character belonged
to a still-open non-alphanumeric run. -/
def sanitizeGo : Bool → List Char → List Char
  | _, [] => []
  | inRun, c :: rest =>
    if isAlnumChar c then c :: sanitizeGo false rest
    else if inRun then sanitizeGo true rest
    else '_' :: sanitizeGo true rest

/-- The `sanitizeSchemaBase` (ts-rest.ts line 85). -/
def sanitizeSchemaBase (raw : String) : String :=
  String.mk (sanitizeGo false raw.data)

/-- The `capitalize` (ts-rest.ts lines 87-88): empty string unchanged, else the
first character upper-cased and the rest kept. -/
def capitalize (value : String) : String :=
  match value.data with
  | [] => value
  | c :: rest => String.mk (c.toUpper :: rest)

/-- The `toZod` (ts-rest.ts lines 131-148): falsy values yield no schema; a
value recognized by `isZodType` is returned; an object with a `body`
property yields that body when the body is itself a zod type; anything else
yields no schema. -/
def toZod : JsValue → Option ZodSchema
  | .nullish => none
  | .zod s => some s
  | .objWithBody b =>
    match b with
    | .zod s => some s
    | _ => none
  | .other => none

/-- The `extractResponseSchema` (ts-rest.ts lines 150-161).  An absent response
yields no schema; both no-body tags (`response === ContractNoBody` and
`isAppRouteNoBody(response)`) yield no schema; an `isAppRouteOtherResponse`
value is unwrapped one level through `toZod(response.body)`; anything else
goes to `toZod(response)`.  (The source's initial `if (!response)` falsy
guard is subsumed: a falsy plain value is `JsValue.nullish`, which `toZod`
also maps to `none`.)  The Lean function is total: no branch fails, which
mirrors the absence of any `throw` in the source. -/
def extractResponseSchema : Option AppRouteResponse → Option ZodSchema
  | none => none
  | some .contractNoBody => none
  | some .noBodyTagged => none
  | some (.otherResponse b) => toZod b
  | some (.plain v) => toZod v

/-- Result shape of `selectResponse`: `{ status?: number; response?: AppRouteResponse }`. -/
structure SelectedResponse where
  status : Option Nat
  response : Option AppRouteResponse
deriving DecidableEq, Repr

/-- The `selectResponse` (ts-rest.ts lines 119-129).  Collect the numeric status
codes; an empty map yields neither status nor response.  Otherwise sort
ascending (`sort((a, b) => a - b)`), let `preferredStatus` be the caller's
`preferred` if supplied (`??` only falls through on a nullish value), else
the first sorted code contained in `DEFAULT_SUCCESS_CODES`; the selected
status falls back to the smallest code, and the response is the map entry
at the selected status (absent when the status is not a key). -/
def selectResponse (route : AppRoute) (preferred : Option Nat) : SelectedResponse :=
  let statusCodes := route.responses.map Prod.fst
  if statusCodes.isEmpty then
    { status := none, response := none }
  else
    let ordered := List.insertionSort (· ≤ ·) statusCodes
    let preferredStatus := preferred.orElse fun _ =>
      ordered.find? fun code => DEFAULT_SUCCESS_CODES.contains code
    let status := preferredStatus.orElse fun _ => ordered.head?
    { status := status
      response := status.bind fun s => List.lookup s route.responses }

/-- The record of optional resolved Zod schemas handed to
`buildSchemaNames` (the anonymous parameter type at ts-rest.ts lines 90-95). -/
structure SchemaSlots where
  params : Option ZodSchema
  query : Option ZodSchema
  body : Option ZodSchema
  headers : Option ZodSchema
  response : Option ZodSchema
deriving DecidableEq, Repr

/-- The `SchemaNames` (ts-rest.ts lines 13-19): each slot optionally carries a
`SchemaReference`.  The source builds it by conditional assignment into an
initially empty object, so a slot key is an own key of the JS object
exactly when its field is `some` here (see `SchemaNames.ownKeys`). -/
structure SchemaNames where
  params : Option SchemaReference
  query : Option SchemaReference
  body : Option SchemaReference
  headers : Option SchemaReference
  response : Option SchemaReference
deriving DecidableEq, Repr

/-- The `Object.keys` of the JS object built by `buildSchemaNames`: keys are
assigned one by one (lines 100-114), in source order, only when the
corresponding schema is present, so exactly the `some` slots are own keys. -/
def SchemaNames.ownKeys (n : SchemaNames) : List String :=
  (if n.params.isSome then ["params"] else [])
    ++ (if n.query.isSome then ["query"] else [])
    ++ (if n.body.isSome then ["body"] else [])
    ++ (if n.headers.isSome then ["headers"] else [])
    ++ (if n.response.isSome then ["response"] else [])

/-- The `buildSchemaNames` (ts-rest.ts lines 90-117): sanitize the base name
once, then for each present slot (a Zod schema object is always truthy)
assign a reference `{ kind: 'zod', name: safeBase + capitalize(slot) }`. -/
def buildSchemaNames (baseName : String) (schemas : SchemaSlots) : SchemaNames :=
  let safeBase := sanitizeSchemaBase baseName
  { params := schemas.params.map fun _ =>
      { kind := "zod", name := safeBase ++ capitalize "params", source := none }
    query := schemas.query.map fun _ =>
      { kind := "zod", name := safeBase ++ capitalize "query", source := none }
    body := schemas.body.map fun _ =>
      { kind := "zod", name := safeBase ++ capitalize "body", source := none }
    headers := schemas.headers.map fun _ =>
      { kind := "zod", name := safeBase ++ capitalize "headers", source := none }
    response := schemas.response.map fun _ =>
      { kind := "zod", name := safeBase ++ capitalize "response", source := none } }

/-- The `ModuleError` from `src/index.ts` (`moduleErrorSchema`), kept to the
fields the adapter copies through. -/
structure ModuleError where
  code : String
  message : String
deriving DecidableEq, Repr

/-- The `RouteInputDefinition` (`routeInputSchema` in `src/index.ts`): four
optional schema references.  The adapter emits it through the object
literal at ts-rest.ts lines 226-231, which declares all four slot keys
unconditionally (an absent slot becomes a key whose value is `undefined`);
`RouteInputDefinition.ownKeys` records that. -/
structure RouteInputDefinition where
  params : Option SchemaReference
  query : Option SchemaReference
  body : Option SchemaReference
  headers : Option SchemaReference
deriving DecidableEq, Repr

/-- The `Object.keys` of the input object literal emitted at ts-rest.ts lines
226-231: the literal `{ params: ..., query: ..., body: ..., headers: ... }`
always declares all four keys, whatever their (possibly `undefined`)
values. -/
def RouteInputDefinition.ownKeys (_ : RouteInputDefinition) : List String :=
  ["params", "query", "body", "headers"]

/-- The `RouteOutputDefinition` (`routeOutputSchema` in `src/index.ts`), without
the optional `headers` reference the adapter never sets. -/
structure RouteOutputDefinition where
  body : SchemaReference
  status : Option Nat
deriving DecidableEq, Repr

/-- The `RouteDefinition` (`routeDefinitionSchema` in `src/index.ts`). -/
structure RouteDefinition where
  name : String
  method : String
  path : String
  summary : Option String
  description : Option String
  tags : Option (List String)
  input : Option RouteInputDefinition
  output : Option RouteOutputDefinition
  errors : Option (List ModuleError)
deriving DecidableEq, Repr

/-- The `RouteSchemas` (`src/index.ts`): the resolved Zod schemas carried beside
the definition.  `response` is never absent (the adapter defaults it to
`noopResponseSchema`).  The adapter emits it through the object literal at
ts-rest.ts lines 241-248, which declares all six keys unconditionally; see
`RouteSchemas.ownKeys`. -/
structure RouteSchemas where
  params : Option ZodSchema
  query : Option ZodSchema
  body : Option ZodSchema
  headers : Option ZodSchema
  response : ZodSchema
  errors : Option (List ZodSchema)
deriving DecidableEq, Repr

/-- The `Object.keys` of the schemas object literal emitted at ts-rest.ts lines
241-248: all six keys are declared, whatever their values. -/
def RouteSchemas.ownKeys (_ : RouteSchemas) : List String :=
  ["params", "query", "body", "headers", "response", "errors"]

/-- The `RouteSpec` (`src/index.ts`), parametric in the handler value `H`,
which the adapter passes through uninspected. -/
structure RouteSpec (H : Type) where
  definition : RouteDefinition
  schemas : RouteSchemas
  handler : H
deriving DecidableEq, Repr

/-- The `FromTsRestRouteOptions` (ts-rest.ts lines 29-54): the external route,
a required `name` and `handler`, and optional overrides for every schema
slot, the success status, and descriptive metadata. -/
structure FromTsRestRouteOptions (H : Type) where
  name : String
  appRoute : AppRoute
  summary : Option String
  description : Option String
  tags : Option (List String)
  schemaBaseName : Option String
  successStatus : Option Nat
  paramsSchema : Option ZodSchema
  querySchema : Option ZodSchema
  bodySchema : Option ZodSchema
  headersSchema : Option ZodSchema
  responseSchema : Option ZodSchema
  errors : Option (List ModuleError)
  errorSchemas : Option (List ZodSchema)
  handler : H
deriving DecidableEq, Repr

/-- The let-binding `resolvedParamsSchema = paramsSchema ?? toZod(appRoute.pathParams)`
(ts-rest.ts line 190). -/
def resolvedParamsSchema {H : Type} (options : FromTsRestRouteOptions H) : Option ZodSchema :=
  options.paramsSchema.orElse fun _ => toZod options.appRoute.pathParams

/-- The let-binding `resolvedQuerySchema = querySchema ?? toZod(appRoute.query)`
(ts-rest.ts line 191). -/
def resolvedQuerySchema {H : Type} (options : FromTsRestRouteOptions H) : Option ZodSchema :=
  options.querySchema.orElse fun _ => toZod options.appRoute.query

/-- The let-binding `resolvedHeadersSchema = headersSchema ?? toZod(appRoute.headers)`
(ts-rest.ts line 192). -/
def resolvedHeadersSchema {H : Type} (options : FromTsRestRouteOptions H) : Option ZodSchema :=
  options.headersSchema.orElse fun _ => toZod options.appRoute.headers

/-- The let-binding `mutationBodySchema = isAppRouteMutation(appRoute) ?
toZod(appRoute.body) : undefined` (ts-rest.ts line 193). -/
def mutationBodySchema {H : Type} (options : FromTsRestRouteOptions H) : Option ZodSchema :=
  if options.appRoute.mutation then toZod options.appRoute.body else none

/-- The let-binding `resolvedBodySchema = bodySchema ?? mutationBodySchema`
(ts-rest.ts line 194). -/
def resolvedBodySchema {H : Type} (options : FromTsRestRouteOptions H) : Option ZodSchema :=
  options.bodySchema.orElse fun _ => mutationBodySchema options

/-- The destructured call `selectResponse(appRoute, successStatus)`
(ts-rest.ts line 196). -/
def selectedOf {H : Type} (options : FromTsRestRouteOptions H) : SelectedResponse :=
  selectResponse options.appRoute options.successStatus

/-- The let-binding `baseResponseSchema = extractResponseSchema(routeResponse)`
(ts-rest.ts line 197). -/
def baseResponseSchema {H : Type} (options : FromTsRestRouteOptions H) : Option ZodSchema :=
  extractResponseSchema (selectedOf options).response

/-- The let-binding `resolvedResponseSchema = responseSchema ??
baseResponseSchema ?? noopResponseSchema` (ts-rest.ts line 198). -/
def resolvedResponseSchema {H : Type} (options : FromTsRestRouteOptions H) : ZodSchema :=
  (options.responseSchema.orElse fun _ => baseResponseSchema options).getD noopResponseSchema

/-- The call `buildSchemaNames(schemaBaseName ?? name, {...})`
(ts-rest.ts lines 200-206). -/
def schemaNamesOf {H : Type} (options : FromTsRestRouteOptions H) : SchemaNames :=
  buildSchemaNames (options.schemaBaseName.getD options.name)
    { params := resolvedParamsSchema options
      query := resolvedQuerySchema options
      body := resolvedBodySchema options
      headers := resolvedHeadersSchema options
      response := some (resolvedResponseSchema options) }

/-- The check `hasInput = Object.values(definitionInput).some(v => v !== undefined)`
over the four input slots of the `definitionInput` record (ts-rest.ts
lines 208-215). -/
def hasInput {H : Type} (options : FromTsRestRouteOptions H) : Bool :=
  (schemaNamesOf options).params.isSome || (schemaNamesOf options).query.isSome
    || (schemaNamesOf options).body.isSome || (schemaNamesOf options).headers.isSome

/-- The `fromTsRestRoute` (ts-rest.ts lines 163-251), mirrored step by step
through the let-binding definitions above:

* resolve each input slot as override `??` value pulled from the route
  (`toZod(appRoute.pathParams)` etc.; the body is pulled only when
  `isAppRouteMutation(appRoute)` holds, line 193);
* select the response via `selectResponse(appRoute, successStatus)` and
  extract its schema; the resolved response schema falls back through
  override `??` extracted `??` `noopResponseSchema` (line 198);
* synthesize schema-reference names from `schemaBaseName ?? name`
  (lines 200-206) — the response slot handed over is always present;
* emit the definition: `input` only when `hasInput`, `output` only when a
  response reference exists (always, per the fallback), `tags`/`errors`
  only when non-empty (lines 217-250). -/
def fromTsRestRoute {H : Type} (options : FromTsRestRouteOptions H) : RouteSpec H :=
  { definition :=
      { name := options.name
        method := options.appRoute.method
        path := options.appRoute.path
        summary := options.summary.orElse fun _ => options.appRoute.summary
        description := options.description.orElse fun _ => options.appRoute.description
        tags := if isNonEmpty options.tags then options.tags else none
        input :=
          if hasInput options then
            some { params := (schemaNamesOf options).params
                   query := (schemaNamesOf options).query
                   body := (schemaNamesOf options).body
                   headers := (schemaNamesOf options).headers }
          else none
        output :=
          match (schemaNamesOf options).response with
          | some ref => some { body := ref, status := (selectedOf options).status }
          | none => none
        errors := if isNonEmpty options.errors then options.errors else none }
    schemas :=
      { params := resolvedParamsSchema options
        query := resolvedQuerySchema options
        body := resolvedBodySchema options
        headers := resolvedHeadersSchema options
        response := resolvedResponseSchema options
        errors := options.errorSchemas }
    handler := options.handler }

/-- A node of a ts-rest `AppRouter` tree: either a route leaf (a value for
which `isAppRoute` holds — the external recognizer is authoritative, so it
is a constructor here) or a nested router, an ordered mapping from keys to
child nodes (`Object.entries` iterates keys in insertion order). -/
inductive AppRouterTree where
  | route (r : AppRoute)
  | router (children : List (String × AppRouterTree))
deriving Repr

/-- The `RouterRouteConfig` (ts-rest.ts lines 64-66): everything of
`FromTsRestRouteOptions` except `appRoute`, with `name` optional.  Because
the source both reads `routeConfig.name` (through `??`, line 265) and
spreads the whole object over a pre-filled `name` (lines 268-272, where a
spread copies an own key even when its value is `undefined`), the JS
`name` slot has three observable states, kept apart here:

* `none` — the returned object has no own `name` key (the spread leaves
  the computed default in place);
* `some none` — an own `name` key holding `undefined` (the spread
  overwrites the computed default with `undefined`);
* `some (some s)` — an own `name` key holding the string `s`. -/
structure RouterRouteConfig (H : Type) where
  name : Option (Option String)
  summary : Option String
  description : Option String
  tags : Option (List String)
  schemaBaseName : Option String
  successStatus : Option Nat
  paramsSchema : Option ZodSchema
  querySchema : Option ZodSchema
  bodySchema : Option ZodSchema
  headersSchema : Option ZodSchema
  responseSchema : Option ZodSchema
  errors : Option (List ModuleError)
  errorSchemas : Option (List ZodSchema)
  handler : H

/-- The `{ key, keyPath, appRoute }` record passed to the `createRoute`
callback (ts-rest.ts lines 71-75). -/
structure CreateRouteInfo where
  key : String
  keyPath : List String
  appRoute : AppRoute

/-- The `FromTsRestRouterOptions` (ts-rest.ts lines 68-76). -/
structure FromTsRestRouterOptions (H : Type) where
  router : List (String × AppRouterTree)
  baseName : Option String
  createRoute : CreateRouteInfo → RouterRouteConfig H

/-- The spread `{ appRoute: value, name: routeName, ...routeConfig }` at
ts-rest.ts lines 268-272, assembled into a full options record.  The
`routeName` argument is the spread-resolved name: `visitRouter` calls this
constructor only once the trailing spread has produced a defined string
for the `name` slot (the config's own string when its `name` key holds
one, else the pre-computed default; a `name` key holding `undefined` never
reaches this constructor — see `visitRouter`). -/
def mkRouteOptions {H : Type} (r : AppRoute) (routeName : String)
    (cfg : RouterRouteConfig H) : FromTsRestRouteOptions H :=
  { name := routeName
    appRoute := r
    summary := cfg.summary
    description := cfg.description
    tags := cfg.tags
    schemaBaseName := cfg.schemaBaseName
    successStatus := cfg.successStatus
    paramsSchema := cfg.paramsSchema
    querySchema := cfg.querySchema
    bodySchema := cfg.bodySchema
    headersSchema := cfg.headersSchema
    responseSchema := cfg.responseSchema
    errors := cfg.errors
    errorSchemas := cfg.errorSchemas
    handler := cfg.handler }

/-- The default route name of a leaf (ts-rest.ts lines 264-265):
`[baseName, ...keyPath.filter(Boolean)].filter(Boolean)` joined with dots.
The outer `filter(Boolean)` drops an undefined or empty `baseName`; the
inner one drops empty keys. -/
def routerDefaultName (baseName : Option String) (keyPath : List String) : String :=
  let nameSegments :=
    (baseName.toList ++ keyPath.filter fun k => !k.isEmpty).filter fun k => !k.isEmpty
  String.intercalate "." nameSegments

/-- The value the `name` slot of a leaf's assembled options ends up
holding.  Line 265 computes `routeName = routeConfig.name ??
nameSegments.join('.')`, where the property read flattens an absent key
and a key holding `undefined` alike (`Option.join`); the spread at lines
268-272 (`{ appRoute: value, name: routeName, ...routeConfig }`) then
installs the config's own `name` value whenever the key is present — even
when that value is `undefined` — and keeps the pre-computed `routeName`
only when the key is absent (`routeConfig.name.getD (some routeName)`). -/
def leafSpreadName {H : Type} (cfg : RouterRouteConfig H) (baseName : Option String)
    (keyPath : List String) : Option String :=
  cfg.name.getD (some ((Option.join cfg.name).getD (routerDefaultName baseName keyPath)))

/-- The `visit` closure of `fromTsRestRouter` (ts-rest.ts lines 259-278):
walk the entries in order; a route leaf is adapted via `fromTsRestRoute`
and appended (`specs.push`) before the walk continues, a subtree is
recursed into with the path extended by its key, so the output is the flat
sequence of adapted leaves in depth-first order.

The name each leaf's options end up carrying is computed by
`leafSpreadName`; when it yields `undefined`, the run leaves the embedded
types: `fromTsRestRoute` receives `undefined` for its required string
`name`, so with no `schemaBaseName` override `sanitizeSchemaBase(undefined)`
throws a `TypeError`, and with one the emitted definition carries an
`undefined` name in violation of `RouteDefinition`'s `name: string`.  The
walk is therefore `Option`-valued and yields `none` in that case. -/
def visitRouter {H : Type} (createRoute : CreateRouteInfo → RouterRouteConfig H)
    (baseName : Option String) :
    List (String × AppRouterTree) → List String → Option (List (RouteSpec H))
  | [], _ => some []
  | (key, .route r) :: rest, path =>
    match leafSpreadName (createRoute { key := key, keyPath := path ++ [key], appRoute := r })
        baseName (path ++ [key]) with
    | none => none
    | some n =>
      match visitRouter createRoute baseName rest path with
      | none => none
      | some specs =>
        some (fromTsRestRoute (mkRouteOptions r n
          (createRoute { key := key, keyPath := path ++ [key], appRoute := r })) :: specs)
  | (key, .router children) :: rest, path =>
    match visitRouter createRoute baseName children (path ++ [key]),
        visitRouter createRoute baseName rest path with
    | some specs1, some specs2 => some (specs1 ++ specs2)
    | _, _ => none
termination_by l _ => sizeOf l

/-- The `fromTsRestRouter` (ts-rest.ts lines 253-282); `none` marks a run
that escapes the embedded types through an `undefined` leaf name (see
`visitRouter`). -/
def fromTsRestRouter {H : Type} (options : FromTsRestRouterOptions H) :
    Option (List (RouteSpec H)) :=
  visitRouter options.createRoute options.baseName options.router []

/-- Specification-side leaf collection, written from the spec's words
("depth-first, insertion order of keys at each level, accumulating a
`keyPath`"): the flat list of `(keyPath, leaf route)` pairs in traversal
order, to be compared with `fromTsRestRouter`'s output. -/
def routerLeavesAux : List (String × AppRouterTree) → List String →
    List (List String × AppRoute)
  | [], _ => []
  | (key, .route r) :: rest, path =>
    (path ++ [key], r) :: routerLeavesAux rest path
  | (key, .router children) :: rest, path =>
    routerLeavesAux children (path ++ [key]) ++ routerLeavesAux rest path
termination_by l _ => sizeOf l

/-- All leaves of a router tree with their key paths, in depth-first
insertion order. -/
def routerLeaves (router : List (String × AppRouterTree)) : List (List String × AppRoute) :=
  routerLeavesAux router []

/-! ### Concrete fixtures used by witnesses and counterexamples -/

/-- A concrete route contract: a GET route with the given response map and
no schemas on the contract itself. -/
def sampleRoute (rs : List (Nat × AppRouteResponse)) : AppRoute :=
  { method := "GET", path := "/accounts", summary := none, description := none
    pathParams := .nullish, query := .nullish, headers := .nullish, body := .nullish
    mutation := false, responses := rs }

/-- Concrete adapter options: adapt `r` under the name `acct` with no
overrides and a trivial handler. -/
def sampleOptions (r : AppRoute) : FromTsRestRouteOptions Unit :=
  { name := "acct", appRoute := r, summary := none, description := none, tags := none
    schemaBaseName := none, successStatus := none, paramsSchema := none, querySchema := none
    bodySchema := none, headersSchema := none, responseSchema := none
    errors := none, errorSchemas := none, handler := () }

/-- A concrete per-route router configuration with no explicit name and no
overrides. -/
def sampleRouterConfig : RouterRouteConfig Unit :=
  { name := none, summary := none, description := none, tags := none, schemaBaseName := none
    successStatus := none, paramsSchema := none, querySchema := none, bodySchema := none
    headersSchema := none, responseSchema := none, errors := none, errorSchemas := none
    handler := () }

/-- The router example of the contract's test properties:
`{ list: <route>, detail: <route> }` with `baseName: "accounts"`. -/
def sampleRouterOptions : FromTsRestRouterOptions Unit :=
  { router := [("list", .route (sampleRoute [])), ("detail", .route (sampleRoute []))]
    baseName := some "accounts"
    createRoute := fun _ => sampleRouterConfig }

/-! ### Helper lemmas -/

/-- On a list sorted ascending, `find?` returns the least element
satisfying the predicate. -/
theorem find?_sorted_least {p : Nat → Bool} :
    ∀ (l : List Nat), l.Sorted (· ≤ ·) → ∀ a : Nat, l.find? p = some a →
      a ∈ l ∧ p a = true ∧ ∀ b ∈ l, p b = true → a ≤ b := by
  intro l
  induction l with
  | nil => intro _ a h; simp at h
  | cons c rest ih =>
    intro hs a h
    rcases List.sorted_cons.mp hs with ⟨hc, hrest⟩
    by_cases hp : p c
    · rw [List.find?_cons_of_pos _ hp] at h
      cases h
      refine ⟨List.mem_cons_self _ _, hp, ?_⟩
      intro b hb _
      rcases List.mem_cons.mp hb with rfl | hb
      · exact le_refl _
      · exact hc b hb
    · rw [List.find?_cons_of_neg _ hp] at h
      obtain ⟨ha, hpa, hleast⟩ := ih hrest a h
      refine ⟨List.mem_cons_of_mem _ ha, hpa, ?_⟩
      intro b hb hpb
      rcases List.mem_cons.mp hb with rfl | hb
      · exact absurd hpb hp
      · exact hleast b hb hpb

/-- On a list sorted ascending, `head?` returns the least element. -/
theorem sorted_head?_least {l : List Nat} (hs : l.Sorted (· ≤ ·)) {a : Nat}
    (h : l.head? = some a) : a ∈ l ∧ ∀ b ∈ l, a ≤ b := by
  cases l with
  | nil => simp at h
  | cons c rest =>
    simp only [List.head?_cons, Option.some.injEq] at h
    subst h
    rcases List.sorted_cons.mp hs with ⟨hc, _⟩
    refine ⟨List.mem_cons_self _ _, ?_⟩
    intro b hb
    rcases List.mem_cons.mp hb with rfl | hb
    · exact le_refl _
    · exact hc b hb

/-- An empty response map yields neither status nor response. -/
theorem selectResponse_of_empty (route : AppRoute) (pref : Option Nat)
    (h : route.responses = []) :
    selectResponse route pref = { status := none, response := none } := by
  simp [selectResponse, h]

/-- With a supplied preferred status and a non-empty response map, the
preferred status is selected unconditionally and the response is the map's
entry at that status. -/
theorem selectResponse_some_pref (route : AppRoute) (p : Nat)
    (h : route.responses ≠ []) :
    selectResponse route (some p) =
      { status := some p, response := List.lookup p route.responses } := by
  have hne : (route.responses.map Prod.fst).isEmpty = false := by
    cases hr : route.responses with
    | nil => exact absurd hr h
    | cons a l => simp
  simp [selectResponse, hne, Option.orElse, Option.bind]

/-- With no supplied preferred status and a non-empty response map, the
selected status is the first sorted success code, else the smallest code. -/
theorem selectResponse_none_pref (route : AppRoute) (h : route.responses ≠ []) :
    selectResponse route none =
      { status := ((List.insertionSort (· ≤ ·) (route.responses.map Prod.fst)).find?
            fun code => DEFAULT_SUCCESS_CODES.contains code).orElse
          fun _ => (List.insertionSort (· ≤ ·) (route.responses.map Prod.fst)).head?
        response := (((List.insertionSort (· ≤ ·) (route.responses.map Prod.fst)).find?
            fun code => DEFAULT_SUCCESS_CODES.contains code).orElse
          fun _ => (List.insertionSort (· ≤ ·) (route.responses.map Prod.fst)).head?).bind
            fun s => List.lookup s route.responses } := by
  have hne : (route.responses.map Prod.fst).isEmpty = false := by
    cases hr : route.responses with
    | nil => exact absurd hr h
    | cons a l => simp
  simp [selectResponse, hne, Option.orElse]

/-- Evaluation lemmas for the slot suffixes of `buildSchemaNames`. -/
theorem capitalize_slots :
    capitalize "params" = "Params" ∧ capitalize "query" = "Query"
    ∧ capitalize "body" = "Body" ∧ capitalize "headers" = "Headers"
    ∧ capitalize "response" = "Response" := by
  refine ⟨?_, ?_, ?_, ?_, ?_⟩ <;> decide

/-!  ### Claim theorems  -/

/-- C1: with no caller-preferred status, `selectResponse` chooses the
smallest status code present that belongs to the fixed success set
`{200, 201, 202, 204}`; if none of those is present it chooses the
smallest status code overall; a supplied preferred status that is present
in the map is chosen regardless of the success-set rule; and for an empty
map no status and no response are selected. -/
theorem selectResponse_status_selection (route : AppRoute) :
    (route.responses = [] →
      selectResponse route none = { status := none, response := none })
    ∧ (∀ m : Nat, m ∈ route.responses.map Prod.fst → m ∈ DEFAULT_SUCCESS_CODES →
        (∀ k ∈ route.responses.map Prod.fst, k ∈ DEFAULT_SUCCESS_CODES → m ≤ k) →
        (selectResponse route none).status = some m)
    ∧ ((∀ k ∈ route.responses.map Prod.fst, k ∉ DEFAULT_SUCCESS_CODES) →
        ∀ m : Nat, m ∈ route.responses.map Prod.fst →
        (∀ k ∈ route.responses.map Prod.fst, m ≤ k) →
        (selectResponse route none).status = some m)
    ∧ (∀ p : Nat, p ∈ route.responses.map Prod.fst →
        (selectResponse route (some p)).status = some p) := by
  refine ⟨fun h => selectResponse_of_empty route none h, ?_, ?_, ?_⟩
  · intro m hm hms hleast
    have hne : route.responses ≠ [] := by
      intro h; rw [h] at hm; simp at hm
    rw [selectResponse_none_pref route hne]
    have hsorted : (List.insertionSort (· ≤ ·) (route.responses.map Prod.fst)).Sorted (· ≤ ·) :=
      List.sorted_insertionSort _ _
    have hperm : List.Perm (List.insertionSort (· ≤ ·) (route.responses.map Prod.fst))
        (route.responses.map Prod.fst) := List.perm_insertionSort _ _
    have hmo : m ∈ List.insertionSort (· ≤ ·) (route.responses.map Prod.fst) :=
      hperm.mem_iff.mpr hm
    have hfind : ((List.insertionSort (· ≤ ·) (route.responses.map Prod.fst)).find?
        fun code => DEFAULT_SUCCESS_CODES.contains code).isSome := by
      rw [List.find?_isSome]
      exact ⟨m, hmo, by simpa using hms⟩
    obtain ⟨a, ha⟩ := Option.isSome_iff_exists.mp hfind
    obtain ⟨hao, hpa, haleast⟩ := find?_sorted_least _ hsorted a ha
    have h1 : a ≤ m := haleast m hmo (by simpa using hms)
    have h2 : m ≤ a := hleast a (hperm.mem_iff.mp hao) (by simpa using hpa)
    have hma : a = m := le_antisymm h1 h2
    subst hma
    rw [ha]
    rfl
  · intro hall m hm hleast
    have hne : route.responses ≠ [] := by
      intro h; rw [h] at hm; simp at hm
    rw [selectResponse_none_pref route hne]
    have hsorted : (List.insertionSort (· ≤ ·) (route.responses.map Prod.fst)).Sorted (· ≤ ·) :=
      List.sorted_insertionSort _ _
    have hperm : List.Perm (List.insertionSort (· ≤ ·) (route.responses.map Prod.fst))
        (route.responses.map Prod.fst) := List.perm_insertionSort _ _
    have hmo : m ∈ List.insertionSort (· ≤ ·) (route.responses.map Prod.fst) :=
      hperm.mem_iff.mpr hm
    have hfind : ((List.insertionSort (· ≤ ·) (route.responses.map Prod.fst)).find?
        fun code => DEFAULT_SUCCESS_CODES.contains code) = none := by
      rw [List.find?_eq_none]
      intro x hx
      simpa using hall x (hperm.mem_iff.mp hx)
    rw [hfind]
    cases hord : List.insertionSort (· ≤ ·) (route.responses.map Prod.fst) with
    | nil => rw [hord] at hmo; simp at hmo
    | cons c rest =>
      obtain ⟨hco, hcleast⟩ := sorted_head?_least (hord ▸ hsorted) (l := c :: rest)
        (a := c) rfl
      have h1 : c ≤ m := hcleast m (hord ▸ hmo)
      have h2 : m ≤ c := hleast c (hperm.mem_iff.mp (hord ▸ hco))
      have hcm : c = m := le_antisymm h1 h2
      subst hcm
      rfl
  · intro p hp
    have hne : route.responses ≠ [] := by
      intro h; rw [h] at hp; simp at hp
    rw [selectResponse_some_pref route p hne]

/-- Witness for C1 at the spec's own examples: keys `{404, 200, 201}` yield
200, keys `{404, 500}` yield 404, a present preferred 404 is chosen, and an
empty map selects nothing. -/
theorem selectResponse_status_selection_witness :
    (selectResponse (sampleRoute [(404, .plain .other), (200, .plain .other),
        (201, .plain .other)]) none).status = some 200
    ∧ (selectResponse (sampleRoute [(404, .plain .other), (500, .plain .other)])
        none).status = some 404
    ∧ (selectResponse (sampleRoute [(404, .plain .other), (200, .plain .other)])
        (some 404)).status = some 404
    ∧ selectResponse (sampleRoute []) none = { status := none, response := none } := by
  refine ⟨?_, ?_, ?_, ?_⟩
  · exact (selectResponse_status_selection _).2.1 200 (by decide) (by decide) (by decide)
  · exact (selectResponse_status_selection _).2.2.1 (by decide) 404 (by decide) (by decide)
  · exact (selectResponse_status_selection _).2.2.2 404 (by decide)
  · exact (selectResponse_status_selection _).1 (by decide)

/-- C2 counterexample: for the response map `{200: ...}` and the absent
preferred status 999, `selectResponse` selects 999 itself (with no
response), not the success-set choice 200 the claim demands. -/
theorem selectResponse_absent_preferred_counterexample :
    (selectResponse (sampleRoute [(200, .plain .other)]) (some 999)).status = some 999
    ∧ (selectResponse (sampleRoute [(200, .plain .other)]) (some 999)).status ≠ some 200
    ∧ (selectResponse (sampleRoute [(200, .plain .other)]) (some 999)).response = none := by
  refine ⟨?_, ?_, ?_⟩ <;> decide

/-- A supplied preferred status that is not a key of a non-empty response
map is selected verbatim, with an absent response (shared engine of the
amended C2 and of C10). -/
theorem selectResponse_pref_not_key (route : AppRoute) (p : Nat)
    (hne : route.responses ≠ []) (hmem : p ∉ route.responses.map Prod.fst) :
    selectResponse route (some p) = { status := some p, response := none } := by
  rw [selectResponse_some_pref route p hne]
  have hlook : List.lookup p route.responses = none := by
    rw [List.lookup_eq_none_iff]
    intro pr hpr
    have hne' : p ≠ pr.1 := fun h => hmem (h ▸ List.mem_map_of_mem Prod.fst hpr)
    simpa [bne_iff_ne] using hne'
  rw [hlook]

/-- C2 as amended: for a non-empty response map and a supplied preferred
status that is not a key of the map, `selectResponse` selects the supplied
status itself (the `??` fallback only fires on an absent preference) and
the selected response is absent. -/
theorem selectResponse_absent_preferred (route : AppRoute) (p : Nat)
    (hne : route.responses ≠ []) (hmem : p ∉ route.responses.map Prod.fst) :
    selectResponse route (some p) = { status := some p, response := none } :=
  selectResponse_pref_not_key route p hne hmem

/-- Witness for the amended C2 at a concrete input. -/
theorem selectResponse_absent_preferred_witness :
    selectResponse (sampleRoute [(200, .plain .other)]) (some 999) =
      { status := some 999, response := none } :=
  selectResponse_absent_preferred _ 999 (by decide) (by decide)

/-- C10: a supplied `successStatus` that is not a key of the route's
non-empty response map is still emitted as `definition.output.status`; the
response used for schema extraction is then absent, so `schemas.response`
falls back to the void default unless a `responseSchema` override is
given. -/
theorem fromTsRestRoute_absent_successStatus {H : Type}
    (o : FromTsRestRouteOptions H) (p : Nat)
    (hp : o.successStatus = some p) (hne : o.appRoute.responses ≠ [])
    (hmem : p ∉ o.appRoute.responses.map Prod.fst) :
    (fromTsRestRoute o).definition.output =
      some { body := { kind := "zod"
                       name := sanitizeSchemaBase (o.schemaBaseName.getD o.name) ++ "Response"
                       source := none }
             status := some p }
    ∧ (o.responseSchema = none →
        (fromTsRestRoute o).schemas.response = noopResponseSchema) := by
  have hsel : selectResponse o.appRoute o.successStatus =
      { status := some p, response := none } := by
    rw [hp]; exact selectResponse_pref_not_key _ _ hne hmem
  constructor
  · simp [fromTsRestRoute, schemaNamesOf, buildSchemaNames, selectedOf, hsel,
      capitalize_slots.2.2.2.2]
  · intro hover
    simp [fromTsRestRoute, resolvedResponseSchema, baseResponseSchema, selectedOf,
      hsel, hover, extractResponseSchema, Option.orElse]

/-- Witness for C10 at a concrete input: response map `{200: ...}`,
`successStatus` 999. -/
theorem fromTsRestRoute_absent_successStatus_witness :
    (fromTsRestRoute { sampleOptions (sampleRoute [(200, .plain .other)]) with
        successStatus := some 999 }).definition.output =
      some { body := { kind := "zod", name := "acctResponse", source := none }
             status := some 999 }
    ∧ (fromTsRestRoute { sampleOptions (sampleRoute [(200, .plain .other)]) with
        successStatus := some 999 }).schemas.response = noopResponseSchema := by
  have h := fromTsRestRoute_absent_successStatus
    (o := { sampleOptions (sampleRoute [(200, .plain .other)]) with successStatus := some 999 })
    999 rfl (by decide) (by decide)
  exact ⟨h.1.trans (by decide), h.2 rfl⟩

/-- C3 counterexample: for a route with an empty response map and no
`responseSchema` override, `schemas.response` is indeed the void default,
but `definition.output` is not absent: the void default is itself named, so
the adapter emits an output with a `Response` body reference (and an absent
status). -/
theorem fromTsRestRoute_empty_output_counterexample :
    (fromTsRestRoute (sampleOptions (sampleRoute []))).schemas.response = noopResponseSchema
    ∧ (fromTsRestRoute (sampleOptions (sampleRoute []))).definition.output ≠ none
    ∧ (fromTsRestRoute (sampleOptions (sampleRoute []))).definition.output =
        some { body := { kind := "zod", name := "acctResponse", source := none }
               status := none } := by
  refine ⟨?_, ?_, ?_⟩ <;> decide

/-- C3 as amended: for a route whose external response map is empty and
with no `responseSchema` override, `fromTsRestRoute` yields
`schemas.response` equal to the void default schema, and
`definition.output` is present, carrying the synthesized `Response` body
reference and an absent (`undefined`) status — not entirely absent as the
claim stated. -/
theorem fromTsRestRoute_empty_responses {H : Type} (o : FromTsRestRouteOptions H)
    (hresp : o.appRoute.responses = []) (hover : o.responseSchema = none) :
    (fromTsRestRoute o).schemas.response = noopResponseSchema
    ∧ (fromTsRestRoute o).definition.output =
        some { body := { kind := "zod"
                         name := sanitizeSchemaBase (o.schemaBaseName.getD o.name) ++ "Response"
                         source := none }
               status := none } := by
  have hsel : selectResponse o.appRoute o.successStatus =
      { status := none, response := none } :=
    selectResponse_of_empty _ _ hresp
  constructor
  · simp [fromTsRestRoute, resolvedResponseSchema, baseResponseSchema, selectedOf,
      hsel, hover, extractResponseSchema, Option.orElse]
  · simp [fromTsRestRoute, schemaNamesOf, buildSchemaNames, selectedOf, hsel,
      capitalize_slots.2.2.2.2]

/-- Witness for the amended C3 at a concrete input. -/
theorem fromTsRestRoute_empty_responses_witness :
    (fromTsRestRoute (sampleOptions (sampleRoute []))).schemas.response = noopResponseSchema
    ∧ (fromTsRestRoute (sampleOptions (sampleRoute []))).definition.output =
        some { body := { kind := "zod", name := "acctResponse", source := none }
               status := none } := by
  have h := fromTsRestRoute_empty_responses (sampleOptions (sampleRoute [])) rfl rfl
  exact ⟨h.1, h.2.trans (by decide)⟩

/-- C4 counterexample: adapting a route with a params schema but no query
schema leaves `query` carrying no reference, yet `query` is still a
declared own key (with an `undefined` value) of both the emitted
`definition.input` object literal and the emitted `schemas` object literal
— the claim's "does not appear as a declared key" fails. -/
theorem fromTsRestRoute_query_key_counterexample :
    (fromTsRestRoute { sampleOptions (sampleRoute []) with
        paramsSchema := some (.named "P") }).definition.input =
      some { params := some { kind := "zod", name := "acctParams", source := none }
             query := none, body := none, headers := none }
    ∧ "query" ∈ RouteInputDefinition.ownKeys
        { params := some { kind := "zod", name := "acctParams", source := none }
          query := none, body := none, headers := none }
    ∧ (fromTsRestRoute { sampleOptions (sampleRoute []) with
        paramsSchema := some (.named "P") }).schemas.query = none
    ∧ "query" ∈ (fromTsRestRoute { sampleOptions (sampleRoute []) with
        paramsSchema := some (.named "P") }).schemas.ownKeys := by
  refine ⟨?_, ?_, ?_, ?_⟩ <;> decide

/-- C4 as amended: an input slot that resolves to no schema carries no
schema and no reference value — `schemas.query` is `undefined` and, when
`definition.input` is emitted, its `query` slot is `undefined` rather than
a null reference — and when none of params/query/body/headers resolves,
`definition.input` is the `undefined` value rather than an empty object.
(The slot keys themselves are still declared, with `undefined` values, on
the emitted object literals; see the counterexample.) -/
theorem fromTsRestRoute_slot_omission {H : Type} (o : FromTsRestRouteOptions H) :
    (o.querySchema = none → toZod o.appRoute.query = none →
      (fromTsRestRoute o).schemas.query = none
      ∧ ∀ i, (fromTsRestRoute o).definition.input = some i → i.query = none)
    ∧ (o.paramsSchema = none → toZod o.appRoute.pathParams = none →
        o.querySchema = none → toZod o.appRoute.query = none →
        o.bodySchema = none → (o.appRoute.mutation = true → toZod o.appRoute.body = none) →
        o.headersSchema = none → toZod o.appRoute.headers = none →
        (fromTsRestRoute o).definition.input = none) := by
  constructor
  · intro hq hq2
    have hq' : (schemaNamesOf o).query = none := by
      simp [schemaNamesOf, buildSchemaNames, resolvedQuerySchema, hq, hq2, Option.orElse]
    constructor
    · simp [fromTsRestRoute, resolvedQuerySchema, hq, hq2, Option.orElse]
    · intro i hi
      have heq : (fromTsRestRoute o).definition.input =
          if hasInput o then
            some { params := (schemaNamesOf o).params
                   query := (schemaNamesOf o).query
                   body := (schemaNamesOf o).body
                   headers := (schemaNamesOf o).headers }
          else none := rfl
      rw [heq] at hi
      cases hha : hasInput o with
      | false => rw [hha] at hi; simp at hi
      | true =>
        rw [hha, if_pos rfl] at hi
        injection hi with hi
        rw [← hi]
        exact hq'
  · intro hp hp2 hq hq2 hb hb2 hh hh2
    have hbody : mutationBodySchema o = none := by
      cases hm : o.appRoute.mutation with
      | false => simp [mutationBodySchema, hm]
      | true => simp [mutationBodySchema, hm, hb2 hm]
    have h1 : (schemaNamesOf o).params = none := by
      simp [schemaNamesOf, buildSchemaNames, resolvedParamsSchema, hp, hp2, Option.orElse]
    have h2 : (schemaNamesOf o).query = none := by
      simp [schemaNamesOf, buildSchemaNames, resolvedQuerySchema, hq, hq2, Option.orElse]
    have h3 : (schemaNamesOf o).body = none := by
      simp [schemaNamesOf, buildSchemaNames, resolvedBodySchema, hb, hbody, Option.orElse]
    have h4 : (schemaNamesOf o).headers = none := by
      simp [schemaNamesOf, buildSchemaNames, resolvedHeadersSchema, hh, hh2, Option.orElse]
    have hhi : hasInput o = false := by
      simp [hasInput, h1, h2, h3, h4]
    simp [fromTsRestRoute, hhi]

/-- Witness for the amended C4 at concrete inputs: a route with a params
schema but no query schema, and a route with no input schemas at all. -/
theorem fromTsRestRoute_slot_omission_witness :
    ((fromTsRestRoute { sampleOptions (sampleRoute []) with
        paramsSchema := some (.named "P") }).schemas.query = none
      ∧ ∀ i, (fromTsRestRoute { sampleOptions (sampleRoute []) with
          paramsSchema := some (.named "P") }).definition.input = some i → i.query = none)
    ∧ (fromTsRestRoute (sampleOptions (sampleRoute []))).definition.input = none := by
  constructor
  · exact (fromTsRestRoute_slot_omission { sampleOptions (sampleRoute []) with
      paramsSchema := some (.named "P") }).1 rfl rfl
  · exact (fromTsRestRoute_slot_omission
      (sampleOptions (sampleRoute []))).2 rfl rfl rfl rfl rfl (fun h => by cases h) rfl rfl

/-- Inside an open non-alphanumeric run, `sanitizeGo` consumes further
non-alphanumeric characters without emitting anything. -/
theorem sanitizeGo_true_skip (run cs : List Char)
    (hall : ∀ c ∈ run, isAlnumChar c = false) :
    sanitizeGo true (run ++ cs) = sanitizeGo true cs := by
  induction run with
  | nil => rfl
  | cons c run' ih =>
    have hc := hall c (List.mem_cons_self _ _)
    simp only [List.cons_append, sanitizeGo, hc]
    simp only [Bool.false_eq_true, if_false, if_true]
    exact ih fun d hd => hall d (List.mem_cons_of_mem _ hd)

/-- At a run boundary (end of input or an alphanumeric next character), the
`inRun` flag of `sanitizeGo` no longer matters. -/
theorem sanitizeGo_true_eq_false (cs : List Char)
    (hb : ∀ d, cs.head? = some d → isAlnumChar d = true) :
    sanitizeGo true cs = sanitizeGo false cs := by
  cases cs with
  | nil => rfl
  | cons d cs' =>
    have hd := hb d rfl
    simp [sanitizeGo, hd]

/-- C5: schema-reference name synthesis is deterministic (the embedding is
a pure function of `baseName` and the slot record, as is the source, which
reads no ambient state) and produces, for each present slot, the sanitized
base name followed by the slot suffix with its first letter capitalized.
Sanitization keeps alphanumeric characters and collapses every maximal run
of non-alphanumeric characters into a single underscore (the last two
conjuncts), and `"get account"` sanitizes to `"get_account"`. -/
theorem buildSchemaNames_naming (baseName : String) (schemas : SchemaSlots) :
    ((∀ r, (buildSchemaNames baseName schemas).params = some r ↔
        schemas.params.isSome ∧ r = ⟨"zod", sanitizeSchemaBase baseName ++ "Params", none⟩)
      ∧ (∀ r, (buildSchemaNames baseName schemas).query = some r ↔
        schemas.query.isSome ∧ r = ⟨"zod", sanitizeSchemaBase baseName ++ "Query", none⟩)
      ∧ (∀ r, (buildSchemaNames baseName schemas).body = some r ↔
        schemas.body.isSome ∧ r = ⟨"zod", sanitizeSchemaBase baseName ++ "Body", none⟩)
      ∧ (∀ r, (buildSchemaNames baseName schemas).headers = some r ↔
        schemas.headers.isSome ∧ r = ⟨"zod", sanitizeSchemaBase baseName ++ "Headers", none⟩)
      ∧ (∀ r, (buildSchemaNames baseName schemas).response = some r ↔
        schemas.response.isSome ∧ r = ⟨"zod", sanitizeSchemaBase baseName ++ "Response", none⟩))
    ∧ (∀ (c : Char) (cs : List Char), isAlnumChar c = true →
        sanitizeGo false (c :: cs) = c :: sanitizeGo false cs)
    ∧ (∀ (run cs : List Char), run ≠ [] → (∀ c ∈ run, isAlnumChar c = false) →
        (∀ d, cs.head? = some d → isAlnumChar d = true) →
        sanitizeGo false (run ++ cs) = '_' :: sanitizeGo false cs)
    ∧ sanitizeSchemaBase "get account" = "get_account" := by
  refine ⟨⟨?_, ?_, ?_, ?_, ?_⟩, ?_, ?_, ?_⟩
  · intro r
    cases hs : schemas.params <;>
      simp [buildSchemaNames, hs, capitalize_slots.1, eq_comm]
  · intro r
    cases hs : schemas.query <;>
      simp [buildSchemaNames, hs, capitalize_slots.2.1, eq_comm]
  · intro r
    cases hs : schemas.body <;>
      simp [buildSchemaNames, hs, capitalize_slots.2.2.1, eq_comm]
  · intro r
    cases hs : schemas.headers <;>
      simp [buildSchemaNames, hs, capitalize_slots.2.2.2.1, eq_comm]
  · intro r
    cases hs : schemas.response <;>
      simp [buildSchemaNames, hs, capitalize_slots.2.2.2.2, eq_comm]
  · intro c cs hc
    simp [sanitizeGo, hc]
  · intro run cs hne hall hb
    cases run with
    | nil => exact absurd rfl hne
    | cons c run' =>
      have hc := hall c (List.mem_cons_self _ _)
      simp only [List.cons_append, sanitizeGo, hc]
      simp only [Bool.false_eq_true, if_false]
      rw [List.append_eq,
        sanitizeGo_true_skip run' cs fun d hd => hall d (List.mem_cons_of_mem _ hd),
        sanitizeGo_true_eq_false cs hb]
  · decide

/-- Witness for C5: the spec's example base name with a present params
slot, and a concrete maximal-run collapse. -/
theorem buildSchemaNames_naming_witness :
    (buildSchemaNames "get account"
        { params := some (.named "P"), query := none, body := none
          headers := none, response := none }).params =
      some { kind := "zod", name := "get_accountParams", source := none }
    ∧ sanitizeGo false (['-', '-'] ++ ['a']) = '_' :: sanitizeGo false ['a'] := by
  constructor
  · exact ((buildSchemaNames_naming "get account"
      { params := some (.named "P"), query := none, body := none
        headers := none, response := none }).1.1 _).mpr ⟨by decide, by decide⟩
  · exact (buildSchemaNames_naming "x"
      { params := none, query := none, body := none
        headers := none, response := none }).2.2.1
      ['-', '-'] ['a'] (by decide) (by decide) (by decide)

/-- C7: both recognized no-body tags yield no response schema; any other
response value that is neither recognized as a schema object nor carries a
schema-valued `body` field also yields no schema, whether it is a plain
value or an `isAppRouteOtherResponse` value; and an absent response yields
no schema.  Extraction never fails: the embedding is a total function,
mirroring a source with no `throw` on any path. -/
theorem extractResponseSchema_noBody_and_degrade :
    extractResponseSchema (some .contractNoBody) = none
    ∧ extractResponseSchema (some .noBodyTagged) = none
    ∧ (∀ v : JsValue, (∀ s, v ≠ .zod s) → (∀ s, v ≠ .objWithBody (.zod s)) →
        extractResponseSchema (some (.plain v)) = none
        ∧ extractResponseSchema (some (.otherResponse v)) = none)
    ∧ extractResponseSchema none = none := by
  refine ⟨rfl, rfl, ?_, rfl⟩
  intro v hz hob
  cases v with
  | nullish => exact ⟨rfl, rfl⟩
  | zod s => exact absurd rfl (hz s)
  | objWithBody b =>
    cases b with
    | nullish => exact ⟨rfl, rfl⟩
    | zod s => exact absurd rfl (hob s)
    | objWithBody b2 => exact ⟨rfl, rfl⟩
    | other => exact ⟨rfl, rfl⟩
  | other => exact ⟨rfl, rfl⟩

/-- Witness for C7 at a concrete unrecognized value. -/
theorem extractResponseSchema_noBody_and_degrade_witness :
    extractResponseSchema (some (.plain .other)) = none
    ∧ extractResponseSchema (some (.otherResponse .other)) = none :=
  extractResponseSchema_noBody_and_degrade.2.2.1 .other
    (fun _ h => nomatch h) (fun _ h => nomatch h)

/-- C8: body-slot resolution of `fromTsRestRoute` — an explicit
`bodySchema` override always wins; without an override the body schema is
pulled from the route's `body` field exactly when the external mutation
predicate recognizes the route; and for a non-mutation route without an
override the slot resolves to no schema and no body reference is
synthesized. -/
theorem fromTsRestRoute_body_resolution {H : Type} (o : FromTsRestRouteOptions H) :
    (∀ s, o.bodySchema = some s → (fromTsRestRoute o).schemas.body = some s)
    ∧ (o.bodySchema = none → o.appRoute.mutation = true →
        (fromTsRestRoute o).schemas.body = toZod o.appRoute.body)
    ∧ (o.bodySchema = none → o.appRoute.mutation = false →
        (fromTsRestRoute o).schemas.body = none
        ∧ ∀ i, (fromTsRestRoute o).definition.input = some i → i.body = none) := by
  refine ⟨?_, ?_, ?_⟩
  · intro s hs
    simp [fromTsRestRoute, resolvedBodySchema, hs, Option.orElse]
  · intro hb hm
    simp [fromTsRestRoute, resolvedBodySchema, mutationBodySchema, hb, hm, Option.orElse]
  · intro hb hm
    have hrb : resolvedBodySchema o = none := by
      simp [resolvedBodySchema, mutationBodySchema, hb, hm, Option.orElse]
    constructor
    · simp [fromTsRestRoute, hrb]
    · intro i hi
      have hb' : (schemaNamesOf o).body = none := by
        simp [schemaNamesOf, buildSchemaNames, hrb]
      have heq : (fromTsRestRoute o).definition.input =
          if hasInput o then
            some { params := (schemaNamesOf o).params
                   query := (schemaNamesOf o).query
                   body := (schemaNamesOf o).body
                   headers := (schemaNamesOf o).headers }
          else none := rfl
      rw [heq] at hi
      cases hha : hasInput o with
      | false => rw [hha] at hi; simp at hi
      | true =>
        rw [hha, if_pos rfl] at hi
        injection hi with hi
        rw [← hi]
        exact hb'

/-- Witness for C8: an override on a non-mutation route, a mutation route
with a contract body schema, and a bare non-mutation route. -/
theorem fromTsRestRoute_body_resolution_witness :
    (fromTsRestRoute { sampleOptions (sampleRoute []) with
        bodySchema := some (.named "OB") }).schemas.body = some (.named "OB")
    ∧ (fromTsRestRoute (sampleOptions { sampleRoute [] with
        mutation := true, body := .zod (.named "B") })).schemas.body = some (.named "B")
    ∧ (fromTsRestRoute (sampleOptions (sampleRoute []))).schemas.body = none := by
  refine ⟨?_, ?_, ?_⟩
  · exact (fromTsRestRoute_body_resolution _).1 _ rfl
  · exact ((fromTsRestRoute_body_resolution _).2.1 rfl rfl).trans (by decide)
  · exact ((fromTsRestRoute_body_resolution _).2.2 rfl rfl).1

/-- Every reference a slot of `schemaNamesOf` carries has kind `zod` and no
source, since `buildSchemaNames` only ever constructs such references. -/
theorem schemaNamesOf_refs_zod {H : Type} (o : FromTsRestRouteOptions H) :
    (∀ r, (schemaNamesOf o).params = some r → r.kind = "zod" ∧ r.source = none)
    ∧ (∀ r, (schemaNamesOf o).query = some r → r.kind = "zod" ∧ r.source = none)
    ∧ (∀ r, (schemaNamesOf o).body = some r → r.kind = "zod" ∧ r.source = none)
    ∧ (∀ r, (schemaNamesOf o).headers = some r → r.kind = "zod" ∧ r.source = none)
    ∧ (∀ r, (schemaNamesOf o).response = some r → r.kind = "zod" ∧ r.source = none) := by
  refine ⟨?_, ?_, ?_, ?_, ?_⟩ <;>
    (intro r h
     simp only [schemaNamesOf, buildSchemaNames] at h
     obtain ⟨a, -, rfl⟩ := Option.map_eq_some'.mp h
     exact ⟨rfl, rfl⟩)

/-- C9: every `SchemaReference` synthesized by `fromTsRestRoute` — the
params/query/body/headers slots of `definition.input` and the output body
reference — has kind `zod` and carries no `source` field; the adapter never
emits a `json-schema` or `ts-rest` reference. -/
theorem fromTsRestRoute_refs_zod {H : Type} (o : FromTsRestRouteOptions H) :
    (∀ i r, (fromTsRestRoute o).definition.input = some i →
        i.params = some r ∨ i.query = some r ∨ i.body = some r ∨ i.headers = some r →
        r.kind = "zod" ∧ r.source = none)
    ∧ (∀ out, (fromTsRestRoute o).definition.output = some out →
        out.body.kind = "zod" ∧ out.body.source = none) := by
  obtain ⟨hp, hq, hb, hh, hr⟩ := schemaNamesOf_refs_zod o
  constructor
  · intro i r hi hslot
    have heq : (fromTsRestRoute o).definition.input =
        if hasInput o then
          some { params := (schemaNamesOf o).params
                 query := (schemaNamesOf o).query
                 body := (schemaNamesOf o).body
                 headers := (schemaNamesOf o).headers }
        else none := rfl
    rw [heq] at hi
    cases hha : hasInput o with
    | false => rw [hha] at hi; simp at hi
    | true =>
      rw [hha, if_pos rfl] at hi
      injection hi with hi
      rw [← hi] at hslot
      rcases hslot with h | h | h | h
      · exact hp r h
      · exact hq r h
      · exact hb r h
      · exact hh r h
  · intro out hout
    have heq : (fromTsRestRoute o).definition.output =
        match (schemaNamesOf o).response with
        | some ref => some { body := ref, status := (selectedOf o).status }
        | none => none := rfl
    rw [heq] at hout
    cases hresp : (schemaNamesOf o).response with
    | none => rw [hresp] at hout; cases hout
    | some ref =>
      rw [hresp] at hout
      injection hout with hout
      rw [← hout]
      exact hr ref hresp

/-- Witness for C9 at a concrete adapted route with a params reference and
the always-present output reference. -/
theorem fromTsRestRoute_refs_zod_witness :
    ((⟨"zod", "acctParams", none⟩ : SchemaReference).kind = "zod"
      ∧ (⟨"zod", "acctParams", none⟩ : SchemaReference).source = none)
    ∧ ∀ out, (fromTsRestRoute (sampleOptions (sampleRoute []))).definition.output = some out →
        out.body.kind = "zod" ∧ out.body.source = none := by
  constructor
  · exact (fromTsRestRoute_refs_zod { sampleOptions (sampleRoute []) with
      paramsSchema := some (.named "P") }).1
      ⟨some ⟨"zod", "acctParams", none⟩, none, none, none⟩
      ⟨"zod", "acctParams", none⟩ (by decide) (Or.inl rfl)
  · exact (fromTsRestRoute_refs_zod (sampleOptions (sampleRoute []))).2

/-- The adapted route's declared name is the `name` option (ts-rest.ts
line 219). -/
theorem fromTsRestRoute_name {H : Type} (o : FromTsRestRouteOptions H) :
    (fromTsRestRoute o).definition.name = o.name := rfl

/-- The spread-resolved leaf name is absent exactly when the config
carries a `name` key holding `undefined`. -/
theorem leafSpreadName_eq_none {H : Type} {cfg : RouterRouteConfig H}
    {bn : Option String} {kp : List String}
    (h : leafSpreadName cfg bn kp = none) : cfg.name = some none := by
  rcases hn : cfg.name with _ | (_ | s) <;> simp [leafSpreadName, hn] at h
  rfl

/-- With no `name` key in the config, the spread keeps the computed
default; with a string-valued `name` key, the spread installs that string
(the flattened-read default agrees).  Both are one statement: absent a
`name` key holding `undefined`, the resolved name is
`routeConfig.name ?? default` with the property read flattened. -/
theorem leafSpreadName_eq_some {H : Type} {cfg : RouterRouteConfig H}
    {bn : Option String} {kp : List String} {n : String}
    (h : leafSpreadName cfg bn kp = some n) :
    n = (Option.join cfg.name).getD (routerDefaultName bn kp) := by
  rcases hn : cfg.name with _ | (_ | s) <;>
    simp [leafSpreadName, hn] at h <;> simp [hn, h.symm]

/-- So long as no callback config carries a `name` key holding
`undefined`, the router walk refines the specification-side leaf
collection: the result is exactly the depth-first leaf list, each leaf
adapted through `fromTsRestRoute` under the name
`routeConfig.name ?? default` (with the property read flattening an
absent key). -/
theorem visitRouter_eq_leaves {H : Type} (cr : CreateRouteInfo → RouterRouteConfig H)
    (bn : Option String) (hno : ∀ info, (cr info).name ≠ some none) :
    ∀ (l : List (String × AppRouterTree)) (path : List String),
      visitRouter cr bn l path = some ((routerLeavesAux l path).map fun lf =>
        fromTsRestRoute (mkRouteOptions lf.2
          ((Option.join (cr { key := lf.1.getLastD "", keyPath := lf.1, appRoute := lf.2 }).name).getD
            (routerDefaultName bn lf.1))
          (cr { key := lf.1.getLastD "", keyPath := lf.1, appRoute := lf.2 }))) := by
  intro l path
  induction l, path using visitRouter.induct (H := H) cr bn with
  | case1 path => simp [visitRouter, routerLeavesAux]
  | case2 key r rest path hx =>
    exact absurd (leafSpreadName_eq_none hx) (hno _)
  | case3 key r rest path n hx1 hx2 ih =>
    rw [hx2] at ih
    cases ih
  | case4 key r rest path n hx1 specs hx2 ih =>
    rw [hx2] at ih
    injection ih with ih
    simp only [visitRouter, routerLeavesAux, hx1, hx2, List.map_cons, ih,
      List.getLastD_concat]
    rw [leafSpreadName_eq_some hx1]
  | case5 key children rest path specs1 specs2 hx1 hx2 ih2 ih1 =>
    rw [hx2] at ih2
    rw [hx1] at ih1
    injection ih2 with ih2
    injection ih1 with ih1
    simp [visitRouter, routerLeavesAux, hx1, hx2, ih1, ih2]
  | case6 key children rest path hx ih2 ih1 =>
    exact absurd ih1 (fun h => hx _ _ ih2 h)

/-- Faithfulness of the spread modelling at a leaf whose callback config
carries a `name` key holding `undefined`: lines 268-272 overwrite the
pre-computed default with `undefined`, and the walk leaves the embedded
domain rather than producing the dot-joined name. -/
theorem visitRouter_undefined_name {H : Type} (cr : CreateRouteInfo → RouterRouteConfig H)
    (bn : Option String) (key : String) (r : AppRoute)
    (rest : List (String × AppRouterTree)) (path : List String)
    (h : (cr { key := key, keyPath := path ++ [key], appRoute := r }).name = some none) :
    visitRouter cr bn ((key, .route r) :: rest) path = none := by
  simp [visitRouter, leafSpreadName, h]

/-- With a non-empty (or absent) base name, the default leaf name is the
dot-join of the base name followed by the non-empty keys of the key
path. -/
theorem routerDefaultName_eq (bn : Option String) (kp : List String)
    (hb : ∀ b, bn = some b → b ≠ "") :
    routerDefaultName bn kp =
      String.intercalate "." (bn.toList ++ kp.filter fun k => !k.isEmpty) := by
  have h2 : (kp.filter fun k => !k.isEmpty).filter (fun k => !k.isEmpty)
      = kp.filter fun k => !k.isEmpty := by
    rw [List.filter_filter]; simp
  have h1 : (bn.toList).filter (fun k => !k.isEmpty) = bn.toList := by
    cases bn with
    | none => rfl
    | some b =>
      have hbne := hb b rfl
      have hbe : b.isEmpty = false := by
        cases hbe : b.isEmpty
        · rfl
        · exact absurd ((String.isEmpty_iff b).mp hbe) hbne
      simp [Option.toList, List.filter, hbe]
  simp only [routerDefaultName, List.filter_append, h1, h2]

/-- C6: `fromTsRestRouter` traverses the router tree depth-first in key
insertion order and returns the adapted `RouteSpec`s as one flat sequence
in traversal order (first conjunct: whenever no callback config carries a
`name` key holding `undefined` — the case in which the trailing spread
hands `fromTsRestRoute` an `undefined` name and the run leaves the
embedded types, see `visitRouter` — the output is exactly the map of
`fromTsRestRoute` over the depth-first leaf list), and, absent an explicit
callback-supplied name (no `name` key in any returned config), names each
leaf as the dot-joined concatenation of the optional `baseName` followed
by every non-empty key of the leaf's `keyPath` (second conjunct, for a
`baseName` that is absent or non-empty). -/
theorem fromTsRestRouter_traversal {H : Type} (options : FromTsRestRouterOptions H) :
    ((∀ info, (options.createRoute info).name ≠ some none) →
      fromTsRestRouter options =
        some ((routerLeaves options.router).map fun lf =>
          fromTsRestRoute (mkRouteOptions lf.2
            ((Option.join (options.createRoute { key := lf.1.getLastD "", keyPath := lf.1, appRoute := lf.2 }).name).getD
              (routerDefaultName options.baseName lf.1))
            (options.createRoute { key := lf.1.getLastD "", keyPath := lf.1, appRoute := lf.2 }))))
    ∧ ((∀ info, (options.createRoute info).name = none) →
        (∀ b, options.baseName = some b → b ≠ "") →
        (fromTsRestRouter options).map (fun specs => specs.map fun s => s.definition.name) =
          some ((routerLeaves options.router).map fun lf =>
            String.intercalate "." (options.baseName.toList
              ++ lf.1.filter fun k => !k.isEmpty))) := by
  constructor
  · intro hno
    exact visitRouter_eq_leaves options.createRoute options.baseName hno options.router []
  · intro hname hbase
    have hno : ∀ info, (options.createRoute info).name ≠ some none := by
      intro info h
      rw [hname info] at h
      cases h
    have h1 := visitRouter_eq_leaves options.createRoute options.baseName hno
      options.router []
    rw [show fromTsRestRouter options
        = visitRouter options.createRoute options.baseName options.router [] from rfl,
      h1]
    simp only [Option.map_some', List.map_map]
    congr 1
    apply List.map_congr_left
    intro lf _
    show (fromTsRestRoute _).definition.name = _
    rw [fromTsRestRoute_name]
    show ((Option.join (options.createRoute _).name).getD
      (routerDefaultName options.baseName lf.1)) = _
    rw [hname]
    exact routerDefaultName_eq options.baseName lf.1 hbase

/-- Witness for C6: the spec's example router
`{ list: <route>, detail: <route> }` with base name `accounts` (whose
callback returns configs with no `name` key) yields the names
`accounts.list` and `accounts.detail`, in that order. -/
theorem fromTsRestRouter_traversal_witness :
    (fromTsRestRouter sampleRouterOptions).map
        (fun specs => specs.map fun s => s.definition.name) =
      some ["accounts.list", "accounts.detail"] := by
  have h := (fromTsRestRouter_traversal sampleRouterOptions).2
    (fun _ => rfl)
    (fun b hb => by
      simp only [sampleRouterOptions] at hb
      cases hb
      decide)
  rw [h]
  simp only [sampleRouterOptions, routerLeaves, routerLeavesAux, List.map_cons,
    List.map_nil]
  decide

end ModuleContract
